import Mathlib

/-!
Verification development for the request-authorization and request-hardening
middleware layer (RBAC role/permission engine, input sanitizer, threat
detector, rate limiter, size-limit parser).

The definitions below are a shallow embedding of the JavaScript source in
src/src/middleware/rbac.middleware.js and src/src/middleware/auth.middleware.js.
JavaScript strings become Lean String or List Char; JSON-like request payloads
become the mutual inductive JValue / JList / JFields; middleware handlers
become total functions from a request record to a result value that is either
a pass-through to the next stage or a short-circuit JSON response.
Where the repository delegates to an external npm package (express-rate-limit,
xss, validator), the delegated behaviour is modelled from the specification
text and marked as such in the corresponding doc comment.
-/

/- ===================== Character helpers ===================== -/

/-- Value of Char.ofNat at a scalar below the surrogate range. -/
theorem toNat_ofNat_of_valid (n : Nat) (h : n < 55296) : (Char.ofNat n).toNat = n := by
  have hv : Nat.isValidChar n := Or.inl h
  unfold Char.ofNat
  rw [dif_pos hv]
  rfl

/-- ASCII lower-casing of one character, the embedding of the effect of
JavaScript toLowerCase and of case-insensitive regular expressions on the
ASCII payloads of this middleware layer. -/
def toLowerChar (c : Char) : Char :=
  if 65 ≤ c.toNat ∧ c.toNat ≤ 90 then Char.ofNat (c.toNat + 32) else c

theorem toLowerChar_idem (c : Char) : toLowerChar (toLowerChar c) = toLowerChar c := by
  unfold toLowerChar
  by_cases h : 65 ≤ c.toNat ∧ c.toNat ≤ 90
  · rw [if_pos h]
    have ht : (Char.ofNat (c.toNat + 32)).toNat = c.toNat + 32 :=
      toNat_ofNat_of_valid _ (by omega)
    rw [if_neg (by omega)]
  · rw [if_neg h, if_neg h]

/-- Lower-casing can only produce a character with code below 65 from that
same character. -/
theorem toLowerChar_eq_low (d : Char) (hd : d.toNat < 65) (c : Char) :
    toLowerChar c = d ↔ c = d := by
  unfold toLowerChar
  by_cases h : 65 ≤ c.toNat ∧ c.toNat ≤ 90
  · rw [if_pos h]
    constructor
    · intro he
      have hn : (Char.ofNat (c.toNat + 32)).toNat = d.toNat := by rw [he]
      rw [toNat_ofNat_of_valid _ (by omega)] at hn
      omega
    · intro he
      exfalso
      rw [he] at h
      omega
  · rw [if_neg h]

theorem beq_toLowerChar_low (d : Char) (hd : d.toNat < 65) (c : Char) :
    (toLowerChar c == d) = (c == d) := by
  by_cases hc : c = d
  · have hm : ¬(65 ≤ c.toNat ∧ c.toNat ≤ 90) := by rw [hc]; omega
    rw [toLowerChar, if_neg hm]
  · have h2 : toLowerChar c ≠ d := fun he => hc ((toLowerChar_eq_low d hd c).mp he)
    rw [beq_eq_false_iff_ne.mpr hc, beq_eq_false_iff_ne.mpr h2]

/- ===================== Shared list helpers ===================== -/

/-- Boolean test that the first list is an initial segment of the second. -/
def listStarts : List Char → List Char → Bool
  | [], _ => true
  | _ :: _, [] => false
  | p :: ps, c :: cs => p = c && listStarts ps cs

/-- Boolean substring test on character lists. -/
def containsSeq (pat : List Char) : List Char → Bool
  | [] => pat.isEmpty
  | c :: rest => listStarts pat (c :: rest) || containsSeq pat rest

/- ===================== Role and permission registry ===================== -/

/-- Names that an indexed read on a plain JavaScript object literal finds on
the prototype chain: the members of Object.prototype, every one of which is a
truthy value (a function, or for the last one the prototype object itself). -/
def protoNames : List String :=
  ["constructor", "hasOwnProperty", "isPrototypeOf", "propertyIsEnumerable",
   "toLocaleString", "toString", "valueOf",
   "__defineGetter__", "__defineSetter__", "__lookupGetter__", "__lookupSetter__",
   "__proto__"]

/-- Result of the indexed lookup on the ROLES object literal: an own property
holding a role with its permission list, a truthy member inherited from
Object.prototype (which has no permissions field), or undefined. -/
inductive RoleLookup where
  | role (permissions : List String)
  | protoFn
  | absent
deriving DecidableEq

/-- Embedding of the lookup ROLES of rbac.middleware.js, including the
JavaScript prototype chain: the five registered role names are own
properties; a name of an Object.prototype member yields the inherited truthy
value; every other name yields undefined. -/
def ROLES (name : String) : RoleLookup :=
  if name = "guest" then .role []
  else if name = "user" then
    .role ["profile:read", "profile:update", "users:read"]
  else if name = "moderator" then
    .role ["profile:read", "profile:update", "users:read", "users:read:all", "users:update"]
  else if name = "admin" then
    .role ["profile:read", "profile:update", "users:create", "users:read", "users:update",
           "users:delete", "users:read:all", "users:update:any", "users:delete:any",
           "admin:panel", "admin:logs", "admin:system"]
  else if name = "superadmin" then .role ["*"]
  else if protoNames.contains name then .protoFn
  else .absent

/-- Embedding of hasPermission of rbac.middleware.js with its JavaScript
error behaviour made explicit: undefined lookup returns false through the
falsy guard; a lookup that lands on an Object.prototype member passes the
guard (the value is truthy) and then throws a TypeError, because its
permissions field is undefined and includes is called on it; none models the
thrown exception. -/
def hasPermissionE (userRole requiredPermission : String) : Option Bool :=
  match ROLES userRole with
  | .absent => some false
  | .protoFn => none
  | .role perms =>
    some (if perms.contains "*" then true else perms.contains requiredPermission)

/-- Boolean collapse of hasPermissionE: its value wherever the source
returns, false on the two inputs of the thrown TypeError.  Statements that
evaluate the check only at registered role names or not at all (superadmin,
empty permission lists) use this form and agree with the source there. -/
def hasPermission (userRole requiredPermission : String) : Bool :=
  match hasPermissionE userRole requiredPermission with
  | some b => b
  | none => false

/-- Embedding of hasAnyPermission of rbac.middleware.js on non-throwing
inputs (the JavaScript some combinator over hasPermission). -/
def hasAnyPermission (userRole : String) (requiredPermissions : List String) : Bool :=
  requiredPermissions.any (fun p => hasPermission userRole p)

/-- Embedding of hasAllPermissions of rbac.middleware.js on non-throwing
inputs (the JavaScript every combinator over hasPermission). -/
def hasAllPermissions (userRole : String) (requiredPermissions : List String) : Bool :=
  requiredPermissions.all (fun p => hasPermission userRole p)

/-- Embedding of hasAnyPermission with the error behaviour explicit: the
JavaScript some combinator invokes the callback element by element and an
exception propagates; on the empty list the callback is never invoked. -/
def hasAnyPermissionE (userRole : String) : List String → Option Bool
  | [] => some false
  | p :: ps =>
    match hasPermissionE userRole p with
    | none => none
    | some true => some true
    | some false => hasAnyPermissionE userRole ps

/-- Embedding of hasAllPermissions with the error behaviour explicit: the
JavaScript every combinator invokes the callback element by element and an
exception propagates; on the empty list it is vacuously true. -/
def hasAllPermissionsE (userRole : String) : List String → Option Bool
  | [] => some true
  | p :: ps =>
    match hasPermissionE userRole p with
    | none => none
    | some false => some false
    | some true => hasAllPermissionsE userRole ps

/- ===================== Request and middleware result model ===================== -/

/-- Authenticated identity attached to a request by the upstream authenticator. -/
structure Identity where
  id : Int
  role : String
deriving DecidableEq

/-- Request descriptor for the RBAC middlewares: the optional identity and the
path parameters. -/
structure Request where
  user : Option Identity
  params : List (String × String)
deriving DecidableEq

/-- Outcome of one middleware: pass-through to the next stage, or a
short-circuit JSON response with status code, error and message fields. -/
inductive MwResult where
  | next
  | respond (status : Nat) (error : String) (message : String)
deriving DecidableEq

/-- Lookup of a path parameter by name; none models a JavaScript undefined. -/
def lookupParam (ps : List (String × String)) (k : String) : Option String :=
  match ps.find? (fun kv => kv.1 == k) with
  | none => none
  | some kv => some kv.2

/- ===================== JavaScript parseInt ===================== -/

/-- Whitespace skipped by JavaScript parseInt before the number. -/
def isJsSpace (c : Char) : Bool :=
  c == ' ' || c == '\t' || c == '\n' || c == '\r' || c == Char.ofNat 11 || c == Char.ofNat 12

def isHexDigit (c : Char) : Bool :=
  c.isDigit || (decide (97 ≤ c.toNat) && decide (c.toNat ≤ 102))
    || (decide (65 ≤ c.toNat) && decide (c.toNat ≤ 70))

def hexDigitVal (c : Char) : Nat :=
  if c.isDigit then c.toNat - 48
  else if 97 ≤ c.toNat then c.toNat - 87
  else c.toNat - 55

def natOfDigits (l : List Char) : Nat :=
  l.foldl (fun a c => a * 10 + (c.toNat - 48)) 0

def natOfHexDigits (l : List Char) : Nat :=
  l.foldl (fun a c => a * 16 + hexDigitVal c) 0

/-- Embedding of JavaScript parseInt with no radix argument: skip leading
whitespace, read an optional sign, detect a 0x or 0X hex prefix, then take the
longest digit prefix; none models the NaN result when no digit is found. -/
def jsParseInt (s : String) : Option Int :=
  let l := s.data.dropWhile isJsSpace
  let sp : Int × List Char :=
    match l with
    | c :: r =>
      if c = '-' then (-1, r) else if c = '+' then (1, r) else (1, l)
    | [] => (1, [])
  match sp.2 with
  | z :: x :: r =>
    if z = '0' ∧ (x = 'x' ∨ x = 'X') then
      let hs := r.takeWhile isHexDigit
      if hs = [] then none else some (sp.1 * (natOfHexDigits hs : Int))
    else
      let ds := sp.2.takeWhile Char.isDigit
      if ds = [] then none else some (sp.1 * (natOfDigits ds : Int))
  | _ =>
    let ds := sp.2.takeWhile Char.isDigit
    if ds = [] then none else some (sp.1 * (natOfDigits ds : Int))

/-- Numeric value of the named path parameter: none both when the parameter is
missing (parseInt of undefined is NaN) and when parseInt finds no digits. -/
def paramInt (ps : List (String × String)) (k : String) : Option Int :=
  match lookupParam ps k with
  | none => none
  | some s => jsParseInt s

/- ===================== RBAC middlewares ===================== -/

/-- Embedding of requirePermission of rbac.middleware.js, boundary catch
included: a TypeError thrown inside hasPermission is caught and answered
with the 500 body of the source.  The logger calls are side effects without
influence on the decision and are not modelled. -/
def requirePermission (requiredPermission : String) (req : Request) : MwResult :=
  match req.user with
  | none =>
    .respond 401 "Authentication required" "You must be logged in to access this resource"
  | some u =>
    match hasPermissionE u.role requiredPermission with
    | none => .respond 500 "Internal server error" "Error checking permissions"
    | some b =>
      if b then .next
      else .respond 403 "Access denied"
        ("Insufficient permissions. Required: " ++ requiredPermission)

/-- Embedding of requireAnyPermission of rbac.middleware.js, boundary catch
included. -/
def requireAnyPermission (requiredPermissions : List String) (req : Request) : MwResult :=
  match req.user with
  | none =>
    .respond 401 "Authentication required" "You must be logged in to access this resource"
  | some u =>
    match hasAnyPermissionE u.role requiredPermissions with
    | none => .respond 500 "Internal server error" "Error checking permissions"
    | some b =>
      if b then .next
      else .respond 403 "Access denied"
        ("Insufficient permissions. Required any of: " ++ String.intercalate ", " requiredPermissions)

/-- Embedding of requireAllPermissions of rbac.middleware.js, boundary catch
included. -/
def requireAllPermissions (requiredPermissions : List String) (req : Request) : MwResult :=
  match req.user with
  | none =>
    .respond 401 "Authentication required" "You must be logged in to access this resource"
  | some u =>
    match hasAllPermissionsE u.role requiredPermissions with
    | none => .respond 500 "Internal server error" "Error checking permissions"
    | some b =>
      if b then .next
      else .respond 403 "Access denied"
        ("Insufficient permissions. Required all of: " ++ String.intercalate ", " requiredPermissions)

/-- Embedding of requireOwnership of rbac.middleware.js.  In the source the
comparison is parseInt(resourceId) !== userId; since NaN compares unequal to
every number, the none case of paramInt always reaches the 403 branch, exactly
as NaN does. -/
def requireOwnership (resourceIdParam : String) (req : Request) : MwResult :=
  match req.user with
  | none =>
    .respond 401 "Authentication required" "You must be logged in to access this resource"
  | some u =>
    if u.role = "admin" ∨ u.role = "superadmin" then .next
    else
      match paramInt req.params resourceIdParam with
      | none => .respond 403 "Access denied" "You can only access your own resources"
      | some n =>
        if n = u.id then .next
        else .respond 403 "Access denied" "You can only access your own resources"

/- ===================== JSON-like request payloads ===================== -/

mutual
/-- JSON-like value tree of a request body, query or params object. -/
inductive JValue where
  | str (s : String)
  | num (n : Int)
  | jbool (b : Bool)
  | jnull
  | arr (xs : JList)
  | obj (fs : JFields)
inductive JList where
  | jnil
  | jcons (hd : JValue) (tl : JList)
inductive JFields where
  | fnil
  | fcons (key : String) (val : JValue) (tl : JFields)
end

/- ===================== Threat detector ===================== -/

/-- Character class of the first suspicious pattern of
suspiciousActivityDetector in auth.middleware.js (potential XSS
metacharacters). -/
def xssMetaChars : List Char :=
  ['<', '>', Char.ofNat 39, Char.ofNat 34, '%', ';', '(', ')', '&', '+']

def hasXssChar (l : List Char) : Bool :=
  l.any (fun c => xssMetaChars.contains c)

/-- SQL keywords of the second suspicious pattern, matched case-insensitively
between word boundaries. -/
def sqlKeywords : List (List Char) :=
  [['u','n','i','o','n'], ['s','e','l','e','c','t'], ['d','r','o','p'],
   ['d','e','l','e','t','e'], ['i','n','s','e','r','t'], ['u','p','d','a','t','e']]

/-- Word character of the regular-expression word boundary. -/
def isWordChar (c : Char) : Bool := c.isAlphanum || c == '_'

/-- Keyword kw occurs at the head of l with a word boundary on both sides;
prev is the character just before l, none at the start of the string. -/
def boundedAt (prev : Option Char) (kw l : List Char) : Bool :=
  listStarts kw l &&
  (match prev with | none => true | some c => !(isWordChar c)) &&
  (match l.drop kw.length with | [] => true | c :: _ => !(isWordChar c))

def sqlScan (prev : Option Char) : List Char → Bool
  | [] => false
  | c :: rest =>
    sqlKeywords.any (fun kw => boundedAt prev kw (c :: rest)) || sqlScan (some c) rest

def hasSqlKeyword (l : List Char) : Bool := sqlScan none (l.map toLowerChar)

/-- Path-traversal sequences of the third suspicious pattern. -/
def hasPathTraversal (l : List Char) : Bool :=
  containsSeq ['.', '.', '/'] l || containsSeq ['.', '.', '\\'] l

/-- Script-injection keywords of the fourth suspicious pattern, matched
case-insensitively as plain substrings. -/
def scriptKeywords : List (List Char) :=
  [['s','c','r','i','p','t'],
   ['j','a','v','a','s','c','r','i','p','t'],
   ['v','b','s','c','r','i','p','t'],
   ['o','n','l','o','a','d'],
   ['o','n','e','r','r','o','r']]

def hasScriptKeyword (l : List Char) : Bool :=
  scriptKeywords.any (fun kw => containsSeq kw (l.map toLowerChar))

/-- Embedding of checkString of suspiciousActivityDetector: the string matches
some of the four suspicious patterns.  Each request creates fresh regular
expression objects and the first successful test short-circuits the whole
detector, so the global-flag lastIndex state of the source regexes never
influences the decision and a stateless model is faithful. -/
def checkString (s : String) : Bool :=
  hasXssChar s.data || hasSqlKeyword s.data || hasPathTraversal s.data || hasScriptKeyword s.data

mutual
/-- Embedding of checkObject of suspiciousActivityDetector on entry values:
string values are tested with checkString, non-null object values (plain
objects and arrays) are traversed recursively, other scalars are ignored. -/
def checkVal : JValue → Bool
  | .str s => checkString s
  | .obj fs => checkFields fs
  | .arr xs => checkItems xs
  | _ => false
def checkFields : JFields → Bool
  | .fnil => false
  | .fcons _ v tl => checkVal v || checkFields tl
def checkItems : JList → Bool
  | .jnil => false
  | .jcons v tl => checkVal v || checkItems tl
end

/-- Request descriptor of the security middlewares: body, query and params are
the JSON objects attached by the body and routing layers, and the two scanned
headers are optional strings. -/
structure SecRequest where
  body : JFields
  query : JFields
  params : JFields
  userAgent : Option String
  referer : Option String

/-- Header test of suspiciousActivityDetector: in the source an absent or
empty header is falsy and skips the checkString call. -/
def headerSusp : Option String → Bool
  | none => false
  | some s => (s != "") && checkString s

/-- Embedding of suspiciousActivityDetector of auth.middleware.js. -/
def suspiciousActivityDetector (req : SecRequest) : MwResult :=
  if checkFields req.body || checkFields req.query || checkFields req.params
      || headerSusp req.userAgent || headerSusp req.referer then
    .respond 400 "Bad Request" "Request contains suspicious content"
  else .next

/- ===================== Input sanitizer ===================== -/

/-- Skip the remainder of a markup tag: drop characters up to and including
the next closing angle bracket. -/
def dropTag : List Char → List Char
  | [] => []
  | c :: rest => if c = '>' then rest else dropTag rest

theorem dropTag_length (l : List Char) : (dropTag l).length ≤ l.length := by
  induction l with
  | nil => simp [dropTag]
  | cons c rest ih =>
    by_cases h : c = '>'
    · simp [dropTag, h]
    · simp only [dropTag, if_neg h]
      exact Nat.le_succ_of_le ih

/-- Modelled from the spec: the markup-stripping transform of the xss package
(whiteList empty, stripIgnoreTag true) is not part of the repository; per the
specification it removes all tags, no tags are ever permitted.  Every maximal
segment from an opening angle bracket through the next closing angle bracket
(or the end of the string) is removed. -/
def stripTags : List Char → List Char
  | [] => []
  | c :: rest =>
    if c = '<' then stripTags (dropTag rest) else c :: stripTags rest
termination_by l => l.length
decreasing_by
  · simp only [List.length_cons]
    exact Nat.lt_succ_of_le (dropTag_length rest)
  · simp

/-- Character list of a closing script tag. -/
def closeScriptTag : List Char := ['/', 's', 'c', 'r', 'i', 'p', 't', '>']

/-- Character list of the script tag name. -/
def openScriptTag : List Char := ['s', 'c', 'r', 'i', 'p', 't']

/-- Skip forward past the next closing script tag, or to the end. -/
def afterCloseScript : List Char → List Char
  | [] => []
  | c :: rest =>
    if c = '<' ∧ listStarts closeScriptTag rest = true then rest.drop 8
    else afterCloseScript rest

theorem afterCloseScript_length (l : List Char) : (afterCloseScript l).length ≤ l.length := by
  induction l with
  | nil => simp [afterCloseScript]
  | cons c rest ih =>
    by_cases h : c = '<' ∧ listStarts closeScriptTag rest = true
    · simp only [afterCloseScript, if_pos h, List.length_drop, List.length_cons]
      omega
    · simp only [afterCloseScript, if_neg h]
      exact Nat.le_succ_of_le ih

/-- Modelled from the spec: the stripIgnoreTagBody script option of the xss
package (not part of the repository) removes embedded script content, the
whole segment from an opening script tag through its closing tag. -/
def removeScriptBodies : List Char → List Char
  | [] => []
  | c :: rest =>
    if c = '<' ∧ listStarts openScriptTag rest = true then
      removeScriptBodies (afterCloseScript rest)
    else c :: removeScriptBodies rest
termination_by l => l.length
decreasing_by
  · simp only [List.length_cons]
    exact Nat.lt_succ_of_le (afterCloseScript_length rest)
  · simp

/-- Modelled from the spec: the string transform applied by sanitizeObject to
string values of an object, xss with empty whiteList, stripIgnoreTag and
stripIgnoreTagBody script. -/
def xssSanitize (s : String) : String :=
  String.mk (stripTags (removeScriptBodies s.data))

/-- Modelled from the spec: the string transform applied by sanitizeObject to
string elements of an array, xss with empty whiteList and stripIgnoreTag only. -/
def xssSanitizeArr (s : String) : String :=
  String.mk (stripTags s.data)

/-- Commercial at character. -/
def atChar : Char := Char.ofNat 64

/-- Full stop character. -/
def dotChar : Char := Char.ofNat 46

/-- Modelled from the spec: validator.isEmail (not part of the repository), a
syntactic email check; exactly one commercial at with a nonempty local part
and a nonempty domain that contains a full stop. -/
def isEmailL (l : List Char) : Bool :=
  match l.dropWhile (fun c => !(c == atChar)) with
  | [] => false
  | _ :: dom =>
    (!((l.takeWhile (fun c => !(c == atChar))).isEmpty)) && (!(dom.isEmpty)) &&
    (!(dom.any (fun c => c == atChar))) && (dom.any (fun c => c == dotChar))

def isEmail (s : String) : Bool := isEmailL s.data

/-- Modelled from the spec: validator.normalizeEmail (not part of the
repository), address normalization by case-folding to a canonical
lower-case form. -/
def normalizeEmail (s : String) : String :=
  String.mk (s.data.map toLowerChar)

/-- Embedding of the string branch of sanitizeObject of auth.middleware.js:
the xss transform, followed for the email key by address normalization when
the stripped string is a syntactically valid email. -/
def sanitizeStringValue (key : String) (s : String) : String :=
  if key = "email" then
    (if isEmail (xssSanitize s) then normalizeEmail (xssSanitize s) else xssSanitize s)
  else xssSanitize s

/-- Embedding of the array branch of sanitizeObject: string elements receive
the xss transform without the script-body option, every other element (nested
objects and arrays included) passes through unchanged. -/
def sanitizeArrItem : JValue → JValue
  | .str s => .str (xssSanitizeArr s)
  | v => v

def sanitizeJList : JList → JList
  | .jnil => .jnil
  | .jcons v tl => .jcons (sanitizeArrItem v) (sanitizeJList tl)

mutual
/-- Embedding of the per-value dispatch of sanitizeObject of
auth.middleware.js, keyed by the property name of the value. -/
def sanitizeVal (key : String) : JValue → JValue
  | .str s => .str (sanitizeStringValue key s)
  | .obj fs => .obj (sanitizeObject fs)
  | .arr xs => .arr (sanitizeJList xs)
  | v => v
/-- Embedding of sanitizeObject of auth.middleware.js. -/
def sanitizeObject : JFields → JFields
  | .fnil => .fnil
  | .fcons k v tl => .fcons k (sanitizeVal k v) (sanitizeObject tl)
end

/- ===================== Rate limiter ===================== -/

/-- Configuration triple of createRateLimiter of auth.middleware.js. -/
structure RateLimitConfig where
  windowMs : Nat
  maxReq : Nat
  message : String

/-- Fixed-window counting bucket of one rate-limit key. -/
structure Bucket where
  count : Nat
  windowStart : Nat
deriving DecidableEq

/-- Outcome of the rate limiter for one request: pass through, or reject with
status 429 and the retryAfter seconds of the response body. -/
inductive RLResult where
  | proceed
  | reject (retryAfter : Nat) (error : String) (message : String)
deriving DecidableEq

/-- Modelled from the spec: the fixed-window counting of the external
express-rate-limit package (not part of the repository).  If no bucket exists
for the key or its window has elapsed, a fresh bucket with count 1 proceeds;
otherwise the count is incremented and a count above the maximum rejects.  The
429 body is the embedding of the custom handler in createRateLimiter of
auth.middleware.js: its retryAfter is Math.ceil(windowMs / 1000). -/
def rateLimitStep (cfg : RateLimitConfig) (b : Option Bucket) (now : Nat) : Bucket × RLResult :=
  match b with
  | none => (⟨1, now⟩, .proceed)
  | some bk =>
    if bk.windowStart + cfg.windowMs ≤ now then (⟨1, now⟩, .proceed)
    else
      if cfg.maxReq < bk.count + 1 then
        (⟨bk.count + 1, bk.windowStart⟩,
         .reject ((cfg.windowMs + 999) / 1000) "Rate limit exceeded" cfg.message)
      else (⟨bk.count + 1, bk.windowStart⟩, .proceed)

/-- Run a sequence of same-key requests, given by their arrival times, through
the rate limiter, collecting each outcome. -/
def runRL (cfg : RateLimitConfig) : Option Bucket → List Nat → List RLResult
  | _, [] => []
  | b, t :: ts =>
    let br := rateLimitStep cfg b t
    br.2 :: runRL cfg (some br.1) ts

/-- Statement of the specification, for comparison with the retryAfter the
code produces: the number of seconds remaining in the current window,
rounded up. -/
def secondsRemainingInWindow (cfg : RateLimitConfig) (bk : Bucket) (now : Nat) : Nat :=
  (bk.windowStart + cfg.windowMs - now + 999) / 1000

/- ===================== Size-string parser ===================== -/

/-- Unit table of parseSize of auth.middleware.js; an unknown unit falls back
to 1 as in units of the source with the or-1 default. -/
def sizeUnits (u : List Char) : ℚ :=
  if u = ['b'] then 1
  else if u = ['k', 'b'] then 1024
  else if u = ['m', 'b'] then 1048576
  else if u = ['g', 'b'] then 1073741824
  else 1

/-- Match of the anchored size grammar of parseSize of auth.middleware.js on
the lower-cased input: an integer part, an optional fraction, optional
whitespace, an optional unit of lower-case letters, then the end.  The result
is the numeric value and the unit characters, with the source default unit b
when the unit group is absent. -/
def parseSizeMatch (s : String) : Option (ℚ × List Char) :=
  let l := s.data.map toLowerChar
  let ds := l.takeWhile Char.isDigit
  if ds = [] then none
  else
    let numRest : Option (ℚ × List Char) :=
      match l.dropWhile Char.isDigit with
      | [] => some ((natOfDigits ds : ℚ), [])
      | c :: r2 =>
        if c = '.' then
          let fs := r2.takeWhile Char.isDigit
          if fs = [] then none
          else some ((natOfDigits ds : ℚ) + (natOfDigits fs : ℚ) / ((10 : ℚ) ^ fs.length),
                     r2.dropWhile Char.isDigit)
        else some ((natOfDigits ds : ℚ), c :: r2)
    match numRest with
    | none => none
    | some (q, rest) =>
      let r4 := rest.dropWhile isJsSpace
      let us := r4.takeWhile Char.isLower
      if r4.dropWhile Char.isLower = [] then
        some (q, if us = [] then ['b'] else us)
      else none

/-- Embedding of parseSize of auth.middleware.js: the parsed number times the
unit factor, 0 when the grammar does not match. -/
def parseSize (s : String) : ℚ :=
  match parseSizeMatch s with
  | none => 0
  | some (q, u) => q * sizeUnits u

/- ===================== Sanitizer idempotence lemmas ===================== -/

theorem stripTags_no_lt (l : List Char) : '<' ∉ stripTags l := by
  induction l using stripTags.induct with
  | case1 => simp [stripTags]
  | case2 rest ih => rw [stripTags, if_pos rfl]; exact ih
  | case3 c rest h ih =>
    rw [stripTags, if_neg h]
    intro hm
    rcases List.mem_cons.mp hm with h1 | h2
    · exact h h1.symm
    · exact ih h2

theorem stripTags_of_no_lt (l : List Char) (h : '<' ∉ l) : stripTags l = l := by
  induction l with
  | nil => rw [stripTags]
  | cons c rest ih =>
    have hc : c ≠ '<' := fun he => h (by rw [he]; exact List.mem_cons_self _ _)
    rw [stripTags, if_neg (fun he => hc he), ih (fun hm => h (List.mem_cons_of_mem _ hm))]

theorem removeScriptBodies_of_no_lt (l : List Char) (h : '<' ∉ l) : removeScriptBodies l = l := by
  induction l with
  | nil => rw [removeScriptBodies]
  | cons c rest ih =>
    have hc : c ≠ '<' := fun he => h (by rw [he]; exact List.mem_cons_self _ _)
    rw [removeScriptBodies, if_neg (fun he => hc he.1),
        ih (fun hm => h (List.mem_cons_of_mem _ hm))]

theorem xssSanitize_data (s : String) :
    (xssSanitize s).data = stripTags (removeScriptBodies s.data) := rfl

theorem xssSanitize_no_lt (s : String) : '<' ∉ (xssSanitize s).data := by
  rw [xssSanitize_data]
  exact stripTags_no_lt _

theorem xssSanitize_of_no_lt (s : String) (h : '<' ∉ s.data) : xssSanitize s = s := by
  unfold xssSanitize
  rw [removeScriptBodies_of_no_lt _ h, stripTags_of_no_lt _ h]

theorem xssSanitize_idem (s : String) : xssSanitize (xssSanitize s) = xssSanitize s :=
  xssSanitize_of_no_lt _ (xssSanitize_no_lt s)

theorem xssSanitizeArr_no_lt (s : String) : '<' ∉ (xssSanitizeArr s).data :=
  stripTags_no_lt _

theorem xssSanitizeArr_idem (s : String) : xssSanitizeArr (xssSanitizeArr s) = xssSanitizeArr s := by
  unfold xssSanitizeArr
  rw [stripTags_of_no_lt _ (stripTags_no_lt s.data)]

theorem isEmpty_map (f : Char → Char) (l : List Char) : (l.map f).isEmpty = l.isEmpty := by
  cases l <;> rfl

theorem map_lower_no_lt (l : List Char) (h : '<' ∉ l) : '<' ∉ l.map toLowerChar := by
  intro hm
  rcases List.mem_map.mp hm with ⟨c, hcl, hce⟩
  exact h (by rwa [(toLowerChar_eq_low '<' (by decide) c).mp hce] at hcl)

theorem isEmailL_map_lower (l : List Char) :
    isEmailL (l.map toLowerChar) = isEmailL l := by
  have hat : ((fun c => !(c == atChar)) ∘ toLowerChar) = (fun c => !(c == atChar)) :=
    funext (fun c => by simp only [Function.comp_apply, beq_toLowerChar_low atChar (by decide) c])
  have hat2 : ((fun c => (c == atChar)) ∘ toLowerChar) = (fun c => (c == atChar)) :=
    funext (fun c => by simp only [Function.comp_apply, beq_toLowerChar_low atChar (by decide) c])
  have hdot : ((fun c => (c == dotChar)) ∘ toLowerChar) = (fun c => (c == dotChar)) :=
    funext (fun c => by simp only [Function.comp_apply, beq_toLowerChar_low dotChar (by decide) c])
  unfold isEmailL
  rw [List.dropWhile_map, hat, List.takeWhile_map, hat]
  cases hdw : List.dropWhile (fun c => !(c == atChar)) l with
  | nil => rfl
  | cons a dom =>
    simp only [List.map_cons]
    rw [isEmpty_map, isEmpty_map, List.any_map, List.any_map, hat2, hdot]

theorem isEmail_normalizeEmail (s : String) : isEmail (normalizeEmail s) = isEmail s := by
  unfold isEmail normalizeEmail
  exact isEmailL_map_lower s.data

theorem normalizeEmail_idem (s : String) : normalizeEmail (normalizeEmail s) = normalizeEmail s := by
  unfold normalizeEmail
  rw [List.map_map]
  exact congrArg String.mk (List.map_congr_left (fun c _ => toLowerChar_idem c))

theorem normalizeEmail_no_lt (s : String) (h : '<' ∉ s.data) : '<' ∉ (normalizeEmail s).data :=
  map_lower_no_lt s.data h

theorem sanitizeStringValue_idem (key : String) (s : String) :
    sanitizeStringValue key (sanitizeStringValue key s) = sanitizeStringValue key s := by
  unfold sanitizeStringValue
  by_cases hk : key = "email"
  · rw [if_pos hk, if_pos hk]
    by_cases he : isEmail (xssSanitize s) = true
    · rw [if_pos he]
      have hx : xssSanitize (normalizeEmail (xssSanitize s)) = normalizeEmail (xssSanitize s) :=
        xssSanitize_of_no_lt _ (normalizeEmail_no_lt _ (xssSanitize_no_lt s))
      rw [hx]
      have he2 : isEmail (normalizeEmail (xssSanitize s)) = true := by
        rw [isEmail_normalizeEmail]; exact he
      rw [if_pos he2, normalizeEmail_idem]
    · rw [if_neg he, xssSanitize_idem, if_neg he]
  · rw [if_neg hk, if_neg hk, xssSanitize_idem]

theorem sanitizeArrItem_idem (v : JValue) : sanitizeArrItem (sanitizeArrItem v) = sanitizeArrItem v := by
  cases v with
  | str s => simp [sanitizeArrItem, xssSanitizeArr_idem]
  | num n => rfl
  | jbool b => rfl
  | jnull => rfl
  | arr xs => rfl
  | obj fs => rfl

theorem sanitizeJList_idem (xs : JList) : sanitizeJList (sanitizeJList xs) = sanitizeJList xs := by
  cases xs with
  | jnil => rfl
  | jcons v tl =>
    rw [sanitizeJList, sanitizeJList, sanitizeArrItem_idem, sanitizeJList_idem tl]

mutual
theorem sanitizeVal_idem (key : String) (v : JValue) :
    sanitizeVal key (sanitizeVal key v) = sanitizeVal key v := by
  cases v with
  | str s => simp only [sanitizeVal, sanitizeStringValue_idem]
  | obj fs => simp only [sanitizeVal, sanitizeObject_idem fs]
  | arr xs => simp only [sanitizeVal, sanitizeJList_idem]
  | num n => rfl
  | jbool b => rfl
  | jnull => rfl
theorem sanitizeObject_idem (fs : JFields) :
    sanitizeObject (sanitizeObject fs) = sanitizeObject fs := by
  cases fs with
  | fnil => rfl
  | fcons k v tl =>
    simp only [sanitizeObject, sanitizeVal_idem k v, sanitizeObject_idem tl]
end

/- ===================== Claim theorems ===================== -/

/-- Claim C1, counterexample, two concrete failures of the claim as stated.
First, for the name nosuchrole, absent from the registry, hasAllPermissions
of the empty permission list returns true, because the JavaScript every
combinator is vacuously true on an empty array.  Second, for the name
toString, also absent from the registry, the lookup lands on the truthy
Object.prototype member, so hasPermission throws a TypeError instead of
returning false (and requirePermission answers 500, not a denial by
returned false). -/
theorem claim_C1_counterexample :
    (ROLES "nosuchrole" = .absent ∧ hasAllPermissions "nosuchrole" [] = true) ∧
    (ROLES "toString" = .protoFn ∧ hasPermissionE "toString" "users:read" = none ∧
     requirePermission "users:read" ⟨some ⟨1, "toString"⟩, []⟩ =
       .respond 500 "Internal server error" "Error checking permissions") := by
  refine ⟨⟨by decide, by decide⟩, by decide, by decide, by decide⟩

/-- Claim C1 (amended): for every role name on which the source lookup is
undefined (absent both from the registry and from Object.prototype),
hasPermission returns false for every permission, hasAnyPermission returns
false for every permission list, hasAllPermissions returns false for every
nonempty permission list and vacuously true on the empty one; for a role
name inherited from Object.prototype the checks throw a TypeError instead of
returning false (caught by the middlewares as a 500), so no permission check
ever grants, but not by a false return. -/
theorem claim_C1_thm :
    (∀ r, ROLES r = .absent →
      (∀ p, hasPermissionE r p = some false) ∧
      (∀ ps, hasAnyPermissionE r ps = some false) ∧
      (∀ p ps, hasAllPermissionsE r (p :: ps) = some false) ∧
      hasAllPermissionsE r [] = some true) ∧
    (∀ r, ROLES r = .protoFn →
      (∀ p, hasPermissionE r p = none) ∧
      (∀ p ps, hasAnyPermissionE r (p :: ps) = none) ∧
      (∀ p ps, hasAllPermissionsE r (p :: ps) = none)) := by
  constructor
  · intro r hr
    have hp : ∀ p, hasPermissionE r p = some false := by
      intro p
      unfold hasPermissionE
      rw [hr]
    refine ⟨hp, ?_, ?_, rfl⟩
    · intro ps
      induction ps with
      | nil => rfl
      | cons p ps ih => rw [hasAnyPermissionE, hp p, ih]
    · intro p ps
      rw [hasAllPermissionsE, hp p]
  · intro r hr
    have hp : ∀ p, hasPermissionE r p = none := by
      intro p
      unfold hasPermissionE
      rw [hr]
    refine ⟨hp, ?_, ?_⟩
    · intro p ps
      rw [hasAnyPermissionE, hp p]
    · intro p ps
      rw [hasAllPermissionsE, hp p]

theorem claim_C1_witness :
    hasPermissionE "nosuchrole" "users:read" = some false ∧
    hasAnyPermissionE "nosuchrole" ["users:read", "admin:panel"] = some false ∧
    hasAllPermissionsE "nosuchrole" ["users:read"] = some false ∧
    hasPermissionE "valueOf" "users:read" = none :=
  ⟨(claim_C1_thm.1 "nosuchrole" (by decide)).1 "users:read",
   (claim_C1_thm.1 "nosuchrole" (by decide)).2.1 ["users:read", "admin:panel"],
   (claim_C1_thm.1 "nosuchrole" (by decide)).2.2.1 "users:read" [],
   (claim_C1_thm.2 "valueOf" (by decide)).1 "users:read"⟩

/-- Claim C6: the superadmin role holds the wildcard permission, so
hasPermission grants it every permission string, listed in the catalog
or not. -/
theorem claim_C6_thm (p : String) : hasPermission "superadmin" p = true := by
  unfold hasPermission hasPermissionE
  have h : ROLES "superadmin" = .role ["*"] := by decide
  rw [h]
  simp

/-- Claim C9: hasAllPermissions of the empty list is true and
hasAnyPermission of the empty list is false for every role string, so
requireAllPermissions of the empty list admits every authenticated identity
while requireAnyPermission of the empty list responds 403 to every
authenticated identity. -/
theorem claim_C9_thm :
    (∀ r, hasAllPermissions r [] = true) ∧
    (∀ r, hasAnyPermission r [] = false) ∧
    (∀ (u : Identity) (ps : List (String × String)),
      requireAllPermissions [] ⟨some u, ps⟩ = .next) ∧
    (∀ (u : Identity) (ps : List (String × String)),
      requireAnyPermission [] ⟨some u, ps⟩ =
        .respond 403 "Access denied" "Insufficient permissions. Required any of: ") := by
  have hs : ("Insufficient permissions. Required any of: " ++ String.intercalate ", " ([] : List String)) =
      "Insufficient permissions. Required any of: " := by decide
  refine ⟨fun r => rfl, fun r => rfl, fun u ps => rfl, fun u ps => ?_⟩
  show MwResult.respond 403 "Access denied"
      ("Insufficient permissions. Required any of: " ++ String.intercalate ", " ([] : List String)) = _
  rw [hs]

/-- Claim C7: requirePermission responds 401 without an identity; responds
403 naming the required permission when an identity is attached and the
permission check evaluates to false; passes through when it evaluates to
true; and when the check throws (a role name inherited from
Object.prototype) the boundary catch responds 500, the InternalFault of the
taxonomy the claim cites. -/
theorem claim_C7_thm (p : String) :
    (∀ ps, requirePermission p ⟨none, ps⟩ =
      .respond 401 "Authentication required" "You must be logged in to access this resource") ∧
    (∀ (u : Identity) (ps : List (String × String)), hasPermissionE u.role p = some false →
      requirePermission p ⟨some u, ps⟩ =
        .respond 403 "Access denied" ("Insufficient permissions. Required: " ++ p)) ∧
    (∀ (u : Identity) (ps : List (String × String)), hasPermissionE u.role p = some true →
      requirePermission p ⟨some u, ps⟩ = .next) ∧
    (∀ (u : Identity) (ps : List (String × String)), hasPermissionE u.role p = none →
      requirePermission p ⟨some u, ps⟩ =
        .respond 500 "Internal server error" "Error checking permissions") := by
  refine ⟨fun ps => rfl, fun u ps h => ?_, fun u ps h => ?_, fun u ps h => ?_⟩
  · simp only [requirePermission]
    rw [h]
    rfl
  · simp only [requirePermission]
    rw [h]
    rfl
  · simp only [requirePermission]
    rw [h]

theorem claim_C7_witness :
    requirePermission "admin:panel" ⟨some ⟨1, "user"⟩, []⟩ =
      .respond 403 "Access denied" ("Insufficient permissions. Required: " ++ "admin:panel") ∧
    requirePermission "profile:read" ⟨some ⟨1, "user"⟩, []⟩ = .next ∧
    requirePermission "profile:read" ⟨some ⟨1, "constructor"⟩, []⟩ =
      .respond 500 "Internal server error" "Error checking permissions" :=
  ⟨(claim_C7_thm "admin:panel").2.1 ⟨1, "user"⟩ [] (by decide),
   (claim_C7_thm "profile:read").2.2.1 ⟨1, "user"⟩ [] (by decide),
   (claim_C7_thm "profile:read").2.2.2 ⟨1, "constructor"⟩ [] (by decide)⟩

/-- Claim C5: requireOwnership always passes the admin and superadmin roles;
for every other role it compares the parseInt value of the named path
parameter with the identity id and responds 403 on mismatch; and on the three
concrete cases of the claim it passes, denies, passes. -/
theorem claim_C5_thm :
    (∀ (u : Identity) (ps : List (String × String)) (param : String),
      u.role = "admin" ∨ u.role = "superadmin" →
      requireOwnership param ⟨some u, ps⟩ = .next) ∧
    (∀ (u : Identity) (ps : List (String × String)) (param : String),
      ¬(u.role = "admin" ∨ u.role = "superadmin") →
      requireOwnership param ⟨some u, ps⟩ =
        if paramInt ps param = some u.id then .next
        else .respond 403 "Access denied" "You can only access your own resources") ∧
    requireOwnership "id" ⟨some ⟨5, "user"⟩, [("id", "5")]⟩ = .next ∧
    requireOwnership "id" ⟨some ⟨5, "user"⟩, [("id", "6")]⟩ =
      .respond 403 "Access denied" "You can only access your own resources" ∧
    requireOwnership "id" ⟨some ⟨5, "admin"⟩, [("id", "6")]⟩ = .next := by
  refine ⟨?_, ?_, by decide, by decide, by decide⟩
  · intro u ps param h
    simp only [requireOwnership]
    rw [if_pos h]
  · intro u ps param h
    simp only [requireOwnership]
    rw [if_neg h]
    cases hp : paramInt ps param with
    | none => simp
    | some n =>
      by_cases hn : n = u.id
      · simp [hn]
      · simp [hn]

theorem claim_C5_witness :
    requireOwnership "id" ⟨some ⟨7, "superadmin"⟩, []⟩ = .next ∧
    requireOwnership "pid" ⟨some ⟨5, "user"⟩, [("pid", "9")]⟩ =
      .respond 403 "Access denied" "You can only access your own resources" := by
  constructor
  · exact claim_C5_thm.1 ⟨7, "superadmin"⟩ [] "id" (Or.inr rfl)
  · have h := claim_C5_thm.2.1 ⟨5, "user"⟩ [("pid", "9")] "pid" (by decide)
    rw [h, if_neg (by decide)]

/-- Claim C10: for every identity whose role is neither admin nor superadmin,
requireOwnership passes exactly when parseInt of the path parameter equals
the identity id (so the trailing-garbage string 5abc passes for id 5), and
responds 403, never failing, when the parameter is missing or has no
parsable numeric prefix. -/
theorem claim_C10_thm :
    (∀ (u : Identity) (ps : List (String × String)) (param : String),
      u.role ≠ "admin" → u.role ≠ "superadmin" →
      (requireOwnership param ⟨some u, ps⟩ = .next ↔ paramInt ps param = some u.id)) ∧
    requireOwnership "id" ⟨some ⟨5, "user"⟩, [("id", "5abc")]⟩ = .next ∧
    (∀ (u : Identity) (ps : List (String × String)) (param : String),
      u.role ≠ "admin" → u.role ≠ "superadmin" → paramInt ps param = none →
      requireOwnership param ⟨some u, ps⟩ =
        .respond 403 "Access denied" "You can only access your own resources") := by
  refine ⟨?_, by decide, ?_⟩
  · intro u ps param h1 h2
    simp only [requireOwnership]
    rw [if_neg (not_or.mpr ⟨h1, h2⟩)]
    cases hp : paramInt ps param with
    | none => simp
    | some n =>
      by_cases hn : n = u.id
      · simp [hn]
      · simp [hn]
  · intro u ps param h1 h2 hp
    simp only [requireOwnership]
    rw [if_neg (not_or.mpr ⟨h1, h2⟩), hp]

theorem claim_C10_witness :
    (requireOwnership "id" ⟨some ⟨5, "user"⟩, [("id", "6")]⟩ = .next ↔
      paramInt [("id", "6")] "id" = some (5 : Int)) ∧
    requireOwnership "id" ⟨some ⟨5, "user"⟩, []⟩ =
      .respond 403 "Access denied" "You can only access your own resources" :=
  ⟨claim_C10_thm.1 ⟨5, "user"⟩ [("id", "6")] "id" (by decide) (by decide),
   claim_C10_thm.2.2 ⟨5, "user"⟩ [] "id" (by decide) (by decide) (by decide)⟩

/-- Claim C4: the recursive sanitization transform is idempotent on every
JSON-like value (nested mappings, sequences, strings and other scalars) and
on every field list. -/
theorem claim_C4_thm :
    (∀ (key : String) (v : JValue), sanitizeVal key (sanitizeVal key v) = sanitizeVal key v) ∧
    (∀ fs : JFields, sanitizeObject (sanitizeObject fs) = sanitizeObject fs) :=
  ⟨sanitizeVal_idem, sanitizeObject_idem⟩

/-- Claim C2: whenever some string nested in the body, query or params
mapping matches a threat pattern, or a present User-Agent or Referer header
matches one, the threat detector responds 400 with message Request contains
suspicious content and never passes to the next stage; the DROP TABLE payload
of the claim is rejected and the hello world payload passes through. -/
theorem claim_C2_thm :
    (∀ req : SecRequest,
      ((checkFields req.body || checkFields req.query || checkFields req.params) = true ∨
       (∃ s, req.userAgent = some s ∧ checkString s = true) ∨
       (∃ s, req.referer = some s ∧ checkString s = true)) →
      suspiciousActivityDetector req =
        .respond 400 "Bad Request" "Request contains suspicious content" ∧
      suspiciousActivityDetector req ≠ .next) ∧
    suspiciousActivityDetector
      ⟨.fcons "payload" (.str "\x27; DROP TABLE users; --") .fnil, .fnil, .fnil, none, none⟩ =
      .respond 400 "Bad Request" "Request contains suspicious content" ∧
    suspiciousActivityDetector
      ⟨.fcons "name" (.str "hello world") .fnil, .fnil, .fnil, none, none⟩ = .next := by
  refine ⟨?_, by decide, by decide⟩
  intro req h
  have hdr : ∀ o : Option String, (∃ s, o = some s ∧ checkString s = true) → headerSusp o = true := by
    intro o ho
    rcases ho with ⟨s, hso, hcs⟩
    have hne : s ≠ "" := by
      intro he
      rw [he] at hcs
      exact absurd hcs (by decide)
    rw [hso]
    show ((s != "") && checkString s) = true
    rw [hcs, bne_iff_ne.mpr hne]
    rfl
  have hc : (checkFields req.body || checkFields req.query || checkFields req.params
      || headerSusp req.userAgent || headerSusp req.referer) = true := by
    rcases h with h1 | h2 | h3
    · rcases Bool.or_eq_true_iff.mp h1 with h4 | h5
      · rcases Bool.or_eq_true_iff.mp h4 with h6 | h7
        · simp [h6]
        · simp [h7]
      · simp [h5]
    · simp [hdr req.userAgent h2]
    · simp [hdr req.referer h3]
  unfold suspiciousActivityDetector
  rw [if_pos hc]
  exact ⟨rfl, by simp⟩

theorem claim_C2_witness :
    suspiciousActivityDetector
      ⟨.fcons "x" (.str "\x27; DROP TABLE users; --") .fnil, .fnil, .fnil, none, none⟩ =
      .respond 400 "Bad Request" "Request contains suspicious content" ∧
    suspiciousActivityDetector
      ⟨.fnil, .fnil, .fnil, some "() { :; }; /bin/bash", none⟩ =
      .respond 400 "Bad Request" "Request contains suspicious content" :=
  ⟨(claim_C2_thm.1 ⟨.fcons "x" (.str "\x27; DROP TABLE users; --") .fnil, .fnil, .fnil, none, none⟩
      (Or.inl (by decide))).1,
   (claim_C2_thm.1 ⟨.fnil, .fnil, .fnil, some "() { :; }; /bin/bash", none⟩
      (Or.inr (Or.inl ⟨"() { :; }; /bin/bash", rfl, by decide⟩))).1⟩

/-- Claim C3, counterexample: with the tier (windowMs 60000, max 3), a bucket
of count 3 whose window started at time 0, and a 4th request at 30500 ms
(inside the window), the code rejects with retryAfter 60, the full window in
seconds, while 30 seconds remain in the current window; so retryAfter does
not equal the seconds remaining. -/
theorem claim_C3_counterexample :
    (30500 : Nat) < 0 + 60000 ∧
    (rateLimitStep ⟨60000, 3, "Too many requests"⟩ (some ⟨3, 0⟩) 30500).2 =
      .reject 60 "Rate limit exceeded" "Too many requests" ∧
    secondsRemainingInWindow ⟨60000, 3, "Too many requests"⟩ ⟨3, 0⟩ 30500 = 30 ∧
    (60 : Nat) ≠ 30 := by decide

/-- Claim C3 (amended): every 429 rejection carries retryAfter equal to the
ceiling of windowMs / 1000, the full window length in seconds (an upper bound
on the seconds remaining, not the remaining time itself); for the tier
(60000, 3) the 4th request within the window is rejected with retryAfter 60,
which is positive and at most 60, and once the window has elapsed the next
request starts a fresh bucket with count 1 and proceeds. -/
theorem claim_C3_thm :
    (∀ (cfg : RateLimitConfig) (b : Option Bucket) (now ra : Nat) (e m : String),
      (rateLimitStep cfg b now).2 = .reject ra e m → ra = (cfg.windowMs + 999) / 1000) ∧
    runRL ⟨60000, 3, "Too many requests"⟩ none [0, 1000, 2000, 3000] =
      [.proceed, .proceed, .proceed, .reject 60 "Rate limit exceeded" "Too many requests"] ∧
    ((0 : Nat) < 60 ∧ (60 : Nat) ≤ 60) ∧
    rateLimitStep ⟨60000, 3, "Too many requests"⟩ (some ⟨4, 0⟩) 60000 =
      (⟨1, 60000⟩, .proceed) := by
  refine ⟨?_, by decide, by decide, by decide⟩
  intro cfg b now ra e m h
  cases b with
  | none => simp [rateLimitStep] at h
  | some bk =>
    simp only [rateLimitStep] at h
    by_cases hw : bk.windowStart + cfg.windowMs ≤ now
    · rw [if_pos hw] at h
      simp at h
    · rw [if_neg hw] at h
      by_cases hm : cfg.maxReq < bk.count + 1
      · rw [if_pos hm] at h
        simp at h
        exact h.1.symm
      · rw [if_neg hm] at h
        simp at h

theorem claim_C3_witness :
    (60 : Nat) = (60000 + 999) / 1000 :=
  claim_C3_thm.1 ⟨60000, 3, "Too many requests"⟩ (some ⟨3, 0⟩) 100 60
    "Rate limit exceeded" "Too many requests" (by decide)

/-- Claim C8: parseSize maps 10mb to exactly 10 times 1024 squared through
the unit table, and maps every string outside the size grammar, such as
not-a-size, to 0. -/
theorem claim_C8_thm :
    parseSize "10mb" = 10485760 ∧
    sizeUnits ['b'] = 1 ∧ sizeUnits ['k', 'b'] = 1024 ∧
    sizeUnits ['m', 'b'] = 1048576 ∧ sizeUnits ['g', 'b'] = 1073741824 ∧
    parseSizeMatch "not-a-size" = none ∧
    parseSize "not-a-size" = 0 ∧
    (∀ s, parseSizeMatch s = none → parseSize s = 0) := by
  refine ⟨?_, rfl, rfl, rfl, rfl, rfl, rfl, ?_⟩
  · have h : parseSizeMatch "10mb" = some (((10 : ℕ) : ℚ), ['m', 'b']) := rfl
    unfold parseSize
    rw [h]
    show ((10 : ℕ) : ℚ) * sizeUnits ['m', 'b'] = 10485760
    have hu : sizeUnits ['m', 'b'] = (1048576 : ℚ) := rfl
    rw [hu]
    norm_num
  · intro s hs
    unfold parseSize
    rw [hs]

theorem claim_C8_witness :
    parseSize "totally bogus" = 0 :=
  claim_C8_thm.2.2.2.2.2.2.2 "totally bogus" (by decide)
